import Mathlib

/-!
Verification development for the AI Psychologist chat repository.

The repository ships a Next.js frontend (ChatInterface.tsx, MessageInput in
pages/index.tsx, Message.tsx) together with design documents describing the
backend RAG pipeline (FastAPI + Redis + Qdrant).  The frontend chat logic is
embedded below as pure state-transition functions; the RetrievalPlanner,
whose implementation is not part of the shipped sources, is modelled from
the specification text.
-/

/-! ## JavaScript string trimming

Embeds the behaviour of `String.prototype.trim` as used by the sources
(`content.trim()`, `message.trim()`): strip leading and trailing whitespace.
-/

/-- Whitespace test covering the characters JavaScript `trim` removes that
can occur in chat input (space, tab, newline, carriage return, form feed,
vertical tab). -/
def isJsWhitespace (c : Char) : Bool :=
  c = ' ' || c = '\t' || c = '\n' || c = '\r' || c = '\x0c' || c = '\x0b'

/-- List-level trimming: drop leading whitespace, then trailing whitespace. -/
def jsTrimList (l : List Char) : List Char :=
  (((l.dropWhile isJsWhitespace).reverse.dropWhile isJsWhitespace)).reverse

/-- Embedding of `s.trim()` for a JavaScript string `s`. -/
def jsTrim (s : String) : String :=
  ⟨jsTrimList s.data⟩

/-! ## Data model of the chat client

From `ChatInterface.tsx` (interface `Message`), `Message.tsx`, and the chat
API documented in the repository (`POST /api/chat`).  `Date.now()` and the
message timestamps are modelled as natural numbers supplied by the caller.
-/

inductive Role where
  | user
  | assistant
deriving DecidableEq, Repr

/-- The `metadata` object of an assistant message / chat API response
(fields `chunks_retrieved`, `response_time_ms`, `tokens_used`). -/
structure Metadata where
  chunks_retrieved : Nat
  response_time_ms : Nat
  tokens_used : Nat
deriving DecidableEq, Repr

/-- One entry of the `messages` state of `ChatInterface` (interface
`Message` in ChatInterface.tsx). -/
structure ChatMessage where
  id : Nat
  role : Role
  content : String
  timestamp : Nat
  metadata : Option Metadata
deriving DecidableEq, Repr

/-- The JSON body posted to `/api/chat`: `{ message, session_id }`. -/
structure ChatRequest where
  message : String
  session_id : Option String
deriving DecidableEq, Repr

/-- The JSON body of a successful `/api/chat` response as documented in the
repository and consumed by the client: `{ response, session_id, metadata }`. -/
structure ChatResponse where
  response : String
  session_id : String
  metadata : Metadata
deriving DecidableEq, Repr

/-- The React state of `ChatInterface`: `messages`, `isLoading`, and the
`sessionId` lifted to the page component. -/
structure ClientState where
  messages : List ChatMessage
  isLoading : Bool
  sessionId : Option String
deriving DecidableEq, Repr

/-! ## The sendMessage transition

`sendMessage` in ChatInterface.tsx is an async function with a single await
point (the `axios.post`).  It is embedded as two phases: the synchronous
prefix up to the POST (`sendMessageStart`), and the continuation that runs
once the POST settles (`sendMessageSettle`), successful or failed.
-/

/-- The user message constructed by `sendMessage`:
`{ id: Date.now().toString(), role: "user", content: content.trim(),
timestamp: new Date() }` — no metadata field. -/
def mkUserMessage (now : Nat) (content : String) : ChatMessage :=
  { id := now, role := Role.user, content := jsTrim content,
    timestamp := now, metadata := none }

/-- The assistant message built from a successful response:
`{ id: (Date.now()+1).toString(), role: "assistant",
content: response.data.response, timestamp: new Date(),
metadata: response.data.metadata }`. -/
def mkAssistantMessage (now : Nat) (resp : ChatResponse) : ChatMessage :=
  { id := now + 1, role := Role.assistant, content := resp.response,
    timestamp := now, metadata := some resp.metadata }

/-- The hard-coded content of the message appended in the catch branch of
`sendMessage`. -/
def errorContent : String :=
  "I apologize, but I\x27m experiencing technical difficulties. Please try again."

/-- The error message built in the catch branch: role "assistant", fixed
content, no metadata. -/
def mkErrorMessage (now : Nat) : ChatMessage :=
  { id := now + 1, role := Role.assistant, content := errorContent,
    timestamp := now, metadata := none }

/-- Synchronous prefix of `sendMessage`: the guard
`if (!content.trim()) return;`, the append of the user message, the
`setIsLoading(true)`, and the request body handed to `axios.post`.
Returns the new state and `some` request, or the unchanged state and
`none` when the guard fired. -/
def sendMessageStart (now : Nat) (content : String) (s : ClientState) :
    ClientState × Option ChatRequest :=
  if jsTrim content = "" then (s, none)
  else
    ({ s with messages := s.messages ++ [mkUserMessage now content],
              isLoading := true },
     some { message := jsTrim content, session_id := s.sessionId })

/-- Continuation of `sendMessage` after the POST settles.  Success appends
the assistant message and stores the returned session id; failure appends
the fixed error message.  Both paths run the `finally` block,
`setIsLoading(false)`. -/
def sendMessageSettle (now : Nat) (outcome : Except Unit ChatResponse)
    (s : ClientState) : ClientState :=
  match outcome with
  | Except.ok resp =>
      { s with messages := s.messages ++ [mkAssistantMessage now resp],
               sessionId := some resp.session_id,
               isLoading := false }
  | Except.error _ =>
      { s with messages := s.messages ++ [mkErrorMessage now],
               isLoading := false }

/-- One whole `sendMessage` call, with `outcome` the way the single POST
settles. -/
def sendMessage (now : Nat) (content : String)
    (outcome : Except Unit ChatResponse) (s : ClientState) : ClientState :=
  match sendMessageStart now content s with
  | (s₁, none) => s₁
  | (s₁, some _) => sendMessageSettle now outcome s₁

/-! ## The input control and the client event loop

`MessageInput` (pages/index.tsx) only invokes `onSendMessage` from
`handleSend` when `message.trim() && !isLoading`; the textarea and the
button are disabled while `isLoading`.  The client as a whole is embedded
as a transition system whose events are a submission attempt and the
settling of the (at most one) pending POST.
-/

/-- The guard of `handleSend` / the disabled controls:
`message.trim() && !isLoading`. -/
def handleSendAllows (s : ClientState) (text : String) : Bool :=
  decide (jsTrim text ≠ "") && !s.isLoading

inductive ClientEvent where
  | submit (now : Nat) (text : String)
  | settle (now : Nat) (outcome : Except Unit ChatResponse)

/-- Client state plus the queue of POSTs issued but not yet settled. -/
structure UIState where
  client : ClientState
  pending : List ChatRequest
deriving DecidableEq

/-- One step of the client: a submission runs `handleSend` (which refuses
while a request is loading or the trimmed text is empty) and, when allowed,
the synchronous prefix of `sendMessage`, recording the issued POST as
pending; a settle event resolves the oldest pending POST through the
continuation of `sendMessage`. -/
def uiStep (s : UIState) : ClientEvent → UIState
  | ClientEvent.submit now text =>
      if handleSendAllows s.client text then
        match sendMessageStart now text s.client with
        | (c, none) => { s with client := c }
        | (c, some req) => { client := c, pending := s.pending ++ [req] }
      else s
  | ClientEvent.settle now outcome =>
      match s.pending with
      | [] => s
      | _ :: rest =>
          { client := sendMessageSettle now outcome s.client, pending := rest }

/-- The state of a freshly mounted `ChatInterface`: no messages, not
loading, no session id, no POST in flight. -/
def initState : UIState :=
  { client := { messages := [], isLoading := false, sessionId := none },
    pending := [] }

/-- Run a sequence of client events from a state. -/
def runEvents (s : UIState) : List ClientEvent → UIState
  | [] => s
  | e :: es => runEvents (uiStep s e) es

/-! ## RetrievalPlanner

The planner runs in the FastAPI backend, which is documented but not part
of the shipped sources; it is therefore modelled from the specification.
-/

/-- A candidate returned by the passage index: passage id, cosine
similarity in [0,1] (exact rational here), publication year. -/
structure Candidate where
  passage_id : List Char
  similarity : ℚ
  year : Nat
deriving DecidableEq, Repr

/-- Lexicographic comparison of passage ids (character code order),
standing in for JavaScript/Python string comparison. -/
def lexLE : List Char → List Char → Bool
  | [], _ => true
  | _ :: _, [] => false
  | a :: as, b :: bs =>
      if a < b then true else if b < a then false else lexLE as bs

/-- Ranking order of the planner: descending similarity, ties broken by
newer year, then by passage id lexicographically. -/
def planLE (a b : Candidate) : Bool :=
  if a.similarity ≠ b.similarity then decide (b.similarity ≤ a.similarity)
  else if a.year ≠ b.year then decide (b.year ≤ a.year)
  else lexLE a.passage_id b.passage_id

/-- Insert into a list sorted by `le`. -/
def insertLE (le : Candidate → Candidate → Bool) (a : Candidate) :
    List Candidate → List Candidate
  | [] => [a]
  | b :: l => if le a b then a :: b :: l else b :: insertLE le a l

/-- Insertion sort by `le`. -/
def sortLE (le : Candidate → Candidate → Bool) :
    List Candidate → List Candidate
  | [] => []
  | a :: l => insertLE le a (sortLE le l)

/-- Keep the first occurrence of each passage id, dropping later
duplicates; `seen` accumulates the ids already emitted. -/
def dedupById (seen : List (List Char)) :
    List Candidate → List Candidate
  | [] => []
  | c :: rest =>
      if c.passage_id ∈ seen then dedupById seen rest
      else c :: dedupById (c.passage_id :: seen) rest

/-- Modelled from the spec: the RetrievalPlanner of the backend (absent
from the shipped sources).  Given the candidates fetched from the passage
index, it discards every candidate with `similarity < τ`, ranks the rest
by descending score with the year/id tie-break, removes duplicate passage
ids, and truncates to the top `K`; when fewer than `K` candidates clear
the threshold the smaller set is returned unpadded. -/
def plan (τ : ℚ) (K : Nat) (candidates : List Candidate) : List Candidate :=
  ((dedupById []
      (sortLE planLE (candidates.filter (fun c => decide (τ ≤ c.similarity))))).take K)

/-! ## Turn-level request/response shapes

For comparing the HTTP exchange the client performs against the shape in
the specification text, the field names of each JSON object are recorded,
and the flat result record of the specification is defined alongside the
nested response the repository documents and the client consumes.
-/

/-- Top-level keys of the request body built in `sendMessage`. -/
def clientChatRequestFields : List String := ["message", "session_id"]

/-- Top-level keys of the `/api/chat` response consumed by `sendMessage`
(`response.data.response`, `response.data.session_id`,
`response.data.metadata`). -/
def clientChatResponseFields : List String := ["response", "session_id", "metadata"]

/-- Keys of the nested `metadata` object of the response. -/
def clientMetadataFields : List String :=
  ["chunks_retrieved", "response_time_ms", "tokens_used"]

/-- Follows the specification text: keys of the flat turn response
`{response_text, session_id, chunks_retrieved, response_time_ms,
tokens_used}`. -/
def specTurnResponseFields : List String :=
  ["response_text", "session_id", "chunks_retrieved", "response_time_ms",
   "tokens_used"]

/-- Follows the specification text: the flat TurnResult record. -/
structure SpecTurnResult where
  response_text : String
  session_id : String
  chunks_retrieved : Nat
  response_time_ms : Nat
  tokens_used : Nat
deriving DecidableEq, Repr

/-- Flatten the nested response the client consumes into the flat record
of the specification (rename `response` to `response_text`, splice the
three metadata fields). -/
def toSpecTurnResult (r : ChatResponse) : SpecTurnResult :=
  { response_text := r.response, session_id := r.session_id,
    chunks_retrieved := r.metadata.chunks_retrieved,
    response_time_ms := r.metadata.response_time_ms,
    tokens_used := r.metadata.tokens_used }

/-- Rebuild the nested response from the flat record. -/
def ofSpecTurnResult (t : SpecTurnResult) : ChatResponse :=
  { response := t.response_text, session_id := t.session_id,
    metadata := { chunks_retrieved := t.chunks_retrieved,
                  response_time_ms := t.response_time_ms,
                  tokens_used := t.tokens_used } }

/-! ## Display layer -/

/-- Message.tsx renders the metadata block under
`message.metadata && !isUser`, with `isUser` defined as
`message.role === "user"`. -/
def showsMetadata (m : ChatMessage) : Bool :=
  m.metadata.isSome && !(m.role == Role.user)

/-! ## Concrete fixtures

Small concrete inputs used to evaluate the definitions in closed
statements.
-/

/-- A fixed successful chat response. -/
def okResponse : ChatResponse :=
  { response := "ok", session_id := "s1",
    metadata := { chunks_retrieved := 0, response_time_ms := 0,
                  tokens_used := 0 } }

/-- One successful turn: a submission followed by a successful settle. -/
def turnEvents (k : Nat) : List ClientEvent :=
  [ClientEvent.submit k "hi", ClientEvent.settle k (Except.ok okResponse)]

/-- Six consecutive successful turns. -/
def sixTurnTrace : List ClientEvent :=
  turnEvents 0 ++ turnEvents 1 ++ turnEvents 2 ++ turnEvents 3
    ++ turnEvents 4 ++ turnEvents 5

/-- Two concrete retrieval candidates, one above and one below a threshold
of 1. -/
def fixtureCandidates : List Candidate :=
  [⟨['p', '1'], 1, 2020⟩, ⟨['p', '2'], 0, 2021⟩]

/-- The eligible candidate of `fixtureCandidates`. -/
def fixtureCandidate : Candidate := ⟨['p', '1'], 1, 2020⟩

/-! ## Helper lemmas -/

/-- The head surviving `dropWhile` fails the predicate. -/
theorem head?_dropWhile_false (p : Char → Bool) (l : List Char) (c : Char)
    (h : (List.dropWhile p l).head? = some c) : p c = false := by
  induction l with
  | nil => simp [List.dropWhile] at h
  | cons a t ih =>
    rw [List.dropWhile_cons] at h
    by_cases hpa : p a
    · rw [if_pos hpa] at h
      exact ih h
    · rw [if_neg hpa] at h
      simp only [List.head?_cons, Option.some.injEq] at h
      subst h
      simpa using hpa

/-- What `dropWhile` removes is a prefix of the list. -/
theorem dropWhile_drops_prefix (p : Char → Bool) (l : List Char) :
    ∃ t, t ++ List.dropWhile p l = l := by
  induction l with
  | nil => exact ⟨[], rfl⟩
  | cons a t ih =>
    rw [List.dropWhile_cons]
    by_cases hpa : p a
    · obtain ⟨u, hu⟩ := ih
      rw [if_pos hpa]
      exact ⟨a :: u, by simp [hu]⟩
    · rw [if_neg hpa]
      exact ⟨[], rfl⟩

/-- A trimmed character list never starts with whitespace. -/
theorem jsTrimList_head_not_ws (l : List Char) (c : Char)
    (h : (jsTrimList l).head? = some c) : isJsWhitespace c = false := by
  obtain ⟨t, ht⟩ :=
    dropWhile_drops_prefix isJsWhitespace (List.dropWhile isJsWhitespace l).reverse
  have hrev : jsTrimList l ++ t.reverse = List.dropWhile isJsWhitespace l := by
    have h2 := congrArg List.reverse ht
    simpa [jsTrimList, List.reverse_append] using h2
  cases hjt : jsTrimList l with
  | nil => rw [hjt] at h; simp at h
  | cons a r =>
    rw [hjt] at h
    simp only [List.head?_cons, Option.some.injEq] at h
    subst h
    rw [hjt] at hrev
    have hmem : (List.dropWhile isJsWhitespace l).head? = some a := by
      rw [← hrev]
      rfl
    exact head?_dropWhile_false _ _ _ hmem

/-- A trimmed character list never ends with whitespace. -/
theorem jsTrimList_getLast_not_ws (l : List Char) (c : Char)
    (h : (jsTrimList l).getLast? = some c) : isJsWhitespace c = false := by
  rw [jsTrimList, List.getLast?_reverse] at h
  exact head?_dropWhile_false _ _ _ h

/-- Membership through sorted insertion. -/
theorem mem_insertLE (le : Candidate → Candidate → Bool) (x a : Candidate)
    (l : List Candidate) : a ∈ insertLE le x l ↔ a = x ∨ a ∈ l := by
  induction l with
  | nil => simp [insertLE]
  | cons b t ih =>
    by_cases hle : le x b
    · simp [insertLE, hle]
    · simp only [insertLE, if_neg hle, List.mem_cons, ih]
      tauto

/-- Sorting preserves membership. -/
theorem mem_sortLE (le : Candidate → Candidate → Bool) (a : Candidate)
    (l : List Candidate) : a ∈ sortLE le l ↔ a ∈ l := by
  induction l with
  | nil => simp [sortLE]
  | cons b t ih => simp [sortLE, mem_insertLE, ih]

/-- Deduplication only keeps elements of the input. -/
theorem mem_dedupById (seen : List (List Char)) (l : List Candidate)
    (c : Candidate) (h : c ∈ dedupById seen l) : c ∈ l := by
  induction l generalizing seen with
  | nil => simp [dedupById] at h
  | cons b t ih =>
    simp only [dedupById] at h
    by_cases hb : b.passage_id ∈ seen
    · rw [if_pos hb] at h
      exact List.mem_cons_of_mem _ (ih _ h)
    · rw [if_neg hb] at h
      rcases List.mem_cons.mp h with h1 | h2
      · exact h1 ▸ List.mem_cons_self _ _
      · exact List.mem_cons_of_mem _ (ih _ h2)

/-- Nothing already seen is emitted again. -/
theorem dedupById_not_mem_seen (seen : List (List Char)) (l : List Candidate)
    (c : Candidate) (h : c ∈ dedupById seen l) : c.passage_id ∉ seen := by
  induction l generalizing seen with
  | nil => simp [dedupById] at h
  | cons b t ih =>
    simp only [dedupById] at h
    by_cases hb : b.passage_id ∈ seen
    · rw [if_pos hb] at h
      exact ih _ h
    · rw [if_neg hb] at h
      rcases List.mem_cons.mp h with h1 | h2
      · subst h1
        exact hb
      · intro hc
        exact ih _ h2 (List.mem_cons_of_mem _ hc)

/-- The emitted passage ids are pairwise distinct. -/
theorem nodup_dedupById (seen : List (List Char)) (l : List Candidate) :
    ((dedupById seen l).map Candidate.passage_id).Nodup := by
  induction l generalizing seen with
  | nil => simp [dedupById]
  | cons b t ih =>
    simp only [dedupById]
    by_cases hb : b.passage_id ∈ seen
    · rw [if_pos hb]
      exact ih _
    · rw [if_neg hb]
      simp only [List.map_cons, List.nodup_cons]
      constructor
      · intro hmem
        rcases List.mem_map.mp hmem with ⟨d, hd, hdp⟩
        exact absurd (by rw [hdp]; exact List.mem_cons_self _ _)
          (dedupById_not_mem_seen _ _ _ hd)
      · exact ih _

/-- Closed form of a `sendMessage` call whose POST succeeds. -/
theorem sendMessage_ok_eq (now : Nat) (text : String) (resp : ChatResponse)
    (s : ClientState) (h : jsTrim text ≠ "") :
    sendMessage now text (Except.ok resp) s
      = { messages := s.messages
            ++ [mkUserMessage now text, mkAssistantMessage now resp],
          isLoading := false, sessionId := some resp.session_id } := by
  simp [sendMessage, sendMessageStart, h, sendMessageSettle]

/-- Closed form of a `sendMessage` call whose POST fails. -/
theorem sendMessage_error_eq (now : Nat) (text : String) (s : ClientState)
    (h : jsTrim text ≠ "") :
    sendMessage now text (Except.error ()) s
      = { messages := s.messages
            ++ [mkUserMessage now text, mkErrorMessage now],
          isLoading := false, sessionId := s.sessionId } := by
  simp [sendMessage, sendMessageStart, h, sendMessageSettle]

/-- Invariant: at most one POST pending, and `isLoading` exactly while one
is pending. -/
def serializedInv (s : UIState) : Prop :=
  s.pending.length ≤ 1 ∧ s.client.isLoading = !s.pending.isEmpty

/-- Invariant: user-role messages never carry metadata. -/
def userMetadataInv (s : UIState) : Prop :=
  ∀ m ∈ s.client.messages, m.role = Role.user → m.metadata = none

theorem serializedInv_step (s : UIState) (e : ClientEvent)
    (h : serializedInv s) : serializedInv (uiStep s e) := by
  obtain ⟨hlen, hload⟩ := h
  cases e with
  | submit now text =>
    by_cases hallow : handleSendAllows s.client text
    · have htrim : jsTrim text ≠ "" := by
        have := hallow
        simp [handleSendAllows] at this
        exact this.1
      have hload2 : s.client.isLoading = false := by
        have := hallow
        simp [handleSendAllows] at this
        exact this.2
      have hpend : s.pending = [] := by
        rw [hload2] at hload
        cases hp : s.pending with
        | nil => rfl
        | cons a t => rw [hp] at hload; simp at hload
      simp [uiStep, hallow, sendMessageStart, htrim, serializedInv, hpend]
    · simp [uiStep, hallow]
      exact ⟨hlen, hload⟩
  | settle now outcome =>
    cases hp : s.pending with
    | nil =>
      have hstep : uiStep s (ClientEvent.settle now outcome) = s := by
        simp [uiStep, hp]
      rw [hstep]
      exact ⟨hlen, hload⟩
    | cons r rest =>
      have hrest : rest = [] := by
        rw [hp] at hlen
        simp at hlen
        exact hlen
      cases outcome with
      | ok resp =>
        simp [uiStep, hp, sendMessageSettle, serializedInv, hrest]
      | error u =>
        simp [uiStep, hp, sendMessageSettle, serializedInv, hrest]

theorem serializedInv_run (s : UIState) (es : List ClientEvent)
    (h : serializedInv s) : serializedInv (runEvents s es) := by
  induction es generalizing s with
  | nil => exact h
  | cons e t ih => exact ih _ (serializedInv_step s e h)

theorem userMetadataInv_step (s : UIState) (e : ClientEvent)
    (h : userMetadataInv s) : userMetadataInv (uiStep s e) := by
  cases e with
  | submit now text =>
    by_cases hallow : handleSendAllows s.client text
    · by_cases htrim : jsTrim text = ""
      · simp [uiStep, hallow, sendMessageStart, htrim]
        exact h
      · simp only [uiStep, if_pos hallow, sendMessageStart, if_neg htrim]
        intro m hm hrole
        rcases List.mem_append.mp hm with h1 | h2
        · exact h m h1 hrole
        · rcases List.mem_singleton.mp h2 with rfl
          rfl
    · simp [uiStep, hallow]
      exact h
  | settle now outcome =>
    cases hp : s.pending with
    | nil =>
      simp [uiStep, hp]
      exact h
    | cons r rest =>
      cases outcome with
      | ok resp =>
        simp only [uiStep, hp, sendMessageSettle]
        intro m hm hrole
        rcases List.mem_append.mp hm with h1 | h2
        · exact h m h1 hrole
        · rcases List.mem_singleton.mp h2 with rfl
          simp [mkAssistantMessage] at hrole
      | error u =>
        simp only [uiStep, hp, sendMessageSettle]
        intro m hm hrole
        rcases List.mem_append.mp hm with h1 | h2
        · exact h m h1 hrole
        · rcases List.mem_singleton.mp h2 with rfl
          simp [mkErrorMessage] at hrole

theorem userMetadataInv_run (s : UIState) (es : List ClientEvent)
    (h : userMetadataInv s) : userMetadataInv (runEvents s es) := by
  induction es generalizing s with
  | nil => exact h
  | cons e t ih => exact ih _ (userMetadataInv_step s e h)

/-! ## Claims -/

/-- Claim C1, counterexample.  The claim states that after a failed POST to
`/api/chat` the messages state equals the state before `sendMessage` was
called.  Starting from the initial (empty) messages state, a failed turn on
input "hi" leaves a different messages state: the user message and a canned
assistant error message remain appended. -/
theorem claim_c1_counterexample :
    (sendMessage 0 "hi" (Except.error ()) initState.client).messages
      ≠ initState.client.messages := by
  decide

/-- Claim C1, amended.  A failed POST does not roll the record back: the
messages state afterwards equals the prior state with the user message and
the fixed assistant-role error message appended, so a user turn does remain
recorded without a genuine assistant counterpart. -/
theorem claim_c1_amended_no_rollback (now : Nat) (text : String)
    (s : ClientState) (h : jsTrim text ≠ "") :
    (sendMessage now text (Except.error ()) s).messages
      = s.messages ++ [mkUserMessage now text, mkErrorMessage now] := by
  rw [sendMessage_error_eq now text s h]

/-- Witness for the amended claim C1. -/
theorem claim_c1_witness :
    jsTrim "hi" ≠ "" ∧
    (sendMessage 0 "hi" (Except.error ()) initState.client).messages
      = initState.client.messages
          ++ [mkUserMessage 0 "hi", mkErrorMessage 0] :=
  ⟨by decide,
   claim_c1_amended_no_rollback 0 "hi" initState.client (by decide)⟩

/-- Claim C2, counterexample.  The claim states that after every successful
turn the client-side messages list holds at most 10 entries with FIFO
eviction.  Six successful turns from the empty state leave 12 messages:
the client never evicts. -/
theorem claim_c2_counterexample :
    ¬ ((runEvents initState sixTurnTrace).client.messages.length ≤ 10) := by
  decide

/-- Claim C2, amended.  The client-side messages list maintained by
`sendMessage` is unbounded: every successful turn appends exactly two
entries and nothing is evicted, so its length grows by 2 per turn (the
N = 10 FIFO bound of the specification lives in the backend session store,
which is not part of the shipped sources). -/
theorem claim_c2_turns_append_two (now : Nat) (text : String)
    (resp : ChatResponse) (s : ClientState) (h : jsTrim text ≠ "") :
    (sendMessage now text (Except.ok resp) s).messages.length
      = s.messages.length + 2 := by
  rw [sendMessage_ok_eq now text resp s h]
  simp

/-- Witness for the amended claim C2. -/
theorem claim_c2_witness :
    jsTrim "hi" ≠ "" ∧
    (sendMessage 0 "hi" (Except.ok okResponse) initState.client).messages.length
      = initState.client.messages.length + 2 :=
  ⟨by decide,
   claim_c2_turns_append_two 0 "hi" okResponse initState.client (by decide)⟩

/-- Claim C3, confirmed.  An input whose trimmed value is empty is rejected:
`sendMessage` returns without touching the state and without issuing a
request, and the send control (`handleSend`) refuses to submit. -/
theorem claim_c3_empty_input_rejected (now : Nat) (text : String)
    (s : ClientState) (u : UIState) (outcome : Except Unit ChatResponse)
    (h : jsTrim text = "") :
    sendMessageStart now text s = (s, none)
    ∧ sendMessage now text outcome s = s
    ∧ uiStep u (ClientEvent.submit now text) = u := by
  refine ⟨by simp [sendMessageStart, h], ?_, ?_⟩
  · simp [sendMessage, sendMessageStart, h]
  · simp [uiStep, handleSendAllows, h]

/-- Witness for claim C3. -/
theorem claim_c3_witness :
    jsTrim "  " = "" ∧
    sendMessage 0 "  " (Except.error ()) initState.client = initState.client :=
  ⟨by decide,
   (claim_c3_empty_input_rejected 0 "  " initState.client initState
      (Except.error ()) (by decide)).2.1⟩

/-- Claim C4, confirmed against the spec-modelled planner.  For every
threshold, bound and candidate list, the result of `plan` holds at most K
entries, contains no passage below the threshold, contains no duplicate
passage ids, and consists only of genuine candidates — sub-threshold
matches are never used as padding. -/
theorem claim_c4_plan_threshold_nodup_bound (τ : ℚ) (K : Nat)
    (candidates : List Candidate) :
    (plan τ K candidates).length ≤ K
    ∧ (∀ c ∈ plan τ K candidates, τ ≤ c.similarity)
    ∧ ((plan τ K candidates).map Candidate.passage_id).Nodup
    ∧ (∀ c ∈ plan τ K candidates, c ∈ candidates) := by
  simp only [plan]
  refine ⟨List.length_take_le _ _, ?_, ?_, ?_⟩
  · intro c hc
    have h1 := List.mem_of_mem_take hc
    have h2 := mem_dedupById _ _ _ h1
    have h3 := (mem_sortLE _ _ _).mp h2
    have h4 := List.mem_filter.mp h3
    simpa using h4.2
  · rw [List.map_take]
    exact (nodup_dedupById _ _).sublist (List.take_sublist _ _)
  · intro c hc
    have h1 := List.mem_of_mem_take hc
    have h2 := mem_dedupById _ _ _ h1
    have h3 := (mem_sortLE _ _ _).mp h2
    exact (List.mem_filter.mp h3).1

/-- Witness for claim C4. -/
theorem claim_c4_witness :
    fixtureCandidate ∈ plan 1 5 fixtureCandidates
    ∧ (1 : ℚ) ≤ fixtureCandidate.similarity
    ∧ fixtureCandidate ∈ fixtureCandidates :=
  ⟨by decide,
   (claim_c4_plan_threshold_nodup_bound 1 5 fixtureCandidates).2.1
     fixtureCandidate (by decide),
   (claim_c4_plan_threshold_nodup_bound 1 5 fixtureCandidates).2.2.2
     fixtureCandidate (by decide)⟩

/-- Claim C5, counterexample.  The claim states that on a failed POST the
client does not append an assistant-role message with substitute content in
place of an error indication.  Concretely, the failed turn appends a
message whose role is assistant and whose content is the hard-coded
apology string, not an error result. -/
theorem claim_c5_counterexample :
    (sendMessage 0 "hi" (Except.error ()) initState.client).messages.getLast?
      = some (mkErrorMessage 0)
    ∧ (mkErrorMessage 0).role = Role.assistant
    ∧ (mkErrorMessage 0).content = errorContent := by
  refine ⟨by decide, rfl, rfl⟩

/-- Claim C5, amended.  A POST failure is surfaced inside the conversation
as a canned assistant-role message: the last recorded entry is the fixed
error message, with role assistant, the hard-coded apology content and no
metadata; the error itself is not recorded as an explicit error result. -/
theorem claim_c5_error_surfaced_as_assistant_message (now : Nat)
    (text : String) (s : ClientState) (h : jsTrim text ≠ "") :
    (sendMessage now text (Except.error ()) s).messages.getLast?
      = some (mkErrorMessage now)
    ∧ (mkErrorMessage now).role = Role.assistant
    ∧ (mkErrorMessage now).content = errorContent
    ∧ (mkErrorMessage now).metadata = none := by
  refine ⟨?_, rfl, rfl, rfl⟩
  rw [sendMessage_error_eq now text s h]
  simp

/-- Witness for the amended claim C5. -/
theorem claim_c5_witness :
    jsTrim "hi" ≠ "" ∧
    (sendMessage 3 "hi" (Except.error ()) initState.client).messages.getLast?
      = some (mkErrorMessage 3) :=
  ⟨by decide,
   (claim_c5_error_surfaced_as_assistant_message 3 "hi" initState.client
      (by decide)).1⟩

/-- Claim C6, confirmed.  A successful turn on a non-empty trimmed input
appends exactly two entries at the end of the record — first the user-role
message, then the assistant-role message — and every previously recorded
message is unchanged in its original position. -/
theorem claim_c6_success_appends_user_then_assistant (now : Nat)
    (text : String) (resp : ChatResponse) (s : ClientState)
    (h : jsTrim text ≠ "") :
    (sendMessage now text (Except.ok resp) s).messages
        = s.messages ++ [mkUserMessage now text, mkAssistantMessage now resp]
    ∧ (mkUserMessage now text).role = Role.user
    ∧ (mkAssistantMessage now resp).role = Role.assistant
    ∧ ∀ i : Nat, i < s.messages.length →
        (sendMessage now text (Except.ok resp) s).messages[i]?
          = s.messages[i]? := by
  have hmsg : (sendMessage now text (Except.ok resp) s).messages
      = s.messages ++ [mkUserMessage now text, mkAssistantMessage now resp] := by
    rw [sendMessage_ok_eq now text resp s h]
  refine ⟨hmsg, rfl, rfl, ?_⟩
  intro i hi
  rw [hmsg, List.getElem?_append]
  simp [hi]

/-- Witness for claim C6. -/
theorem claim_c6_witness :
    jsTrim "hi" ≠ "" ∧
    (sendMessage 0 "hi" (Except.ok okResponse) initState.client).messages
      = initState.client.messages
          ++ [mkUserMessage 0 "hi", mkAssistantMessage 0 okResponse] :=
  ⟨by decide,
   (claim_c6_success_appends_user_then_assistant 0 "hi" okResponse
      initState.client (by decide)).1⟩

/-- Claim C7, counterexample.  The claim states the response consumed by
the client provides the flat fields of the specification turn response.
The flat field `response_text` is not a top-level field of the consumed
response, and neither is `chunks_retrieved`: the client reads `response`
and a nested `metadata` object instead. -/
theorem claim_c7_counterexample :
    "response_text" ∈ specTurnResponseFields
    ∧ "response_text" ∉ clientChatResponseFields
    ∧ "chunks_retrieved" ∈ specTurnResponseFields
    ∧ "chunks_retrieved" ∉ clientChatResponseFields := by
  decide

/-- Claim C7, amended.  The request sent is `{message, session_id}` as the
specification says; the response consumed is the nested
`{response, session_id, metadata: {chunks_retrieved, response_time_ms,
tokens_used}}` object, which carries exactly the information of the
specification flat TurnResult — the two shapes convert losslessly in both
directions — but is not itself the flat shape. -/
theorem claim_c7_shape_correspondence (r : ChatResponse) (t : SpecTurnResult) :
    toSpecTurnResult (ofSpecTurnResult t) = t
    ∧ ofSpecTurnResult (toSpecTurnResult r) = r
    ∧ clientChatRequestFields = ["message", "session_id"]
    ∧ clientChatResponseFields = ["response", "session_id", "metadata"]
    ∧ clientMetadataFields
        = ["chunks_retrieved", "response_time_ms", "tokens_used"] :=
  ⟨rfl, rfl, rfl, rfl, rfl⟩

/-- Claim C8, confirmed.  In every conversation record reachable by any
sequence of client events, retrieval metadata is attached only to
assistant-role messages: user-role messages carry no metadata; and the
display layer renders the metadata block only when the role is not user. -/
theorem claim_c8_metadata_only_assistant (es : List ClientEvent) :
    (∀ m ∈ (runEvents initState es).client.messages,
        m.role = Role.user → m.metadata = none)
    ∧ (∀ m : ChatMessage, showsMetadata m = true → m.role ≠ Role.user) := by
  constructor
  · exact userMetadataInv_run initState es (by intro m hm; simp [initState] at hm)
  · intro m hm hru
    simp [showsMetadata, hru] at hm

/-- Witness for claim C8. -/
theorem claim_c8_witness :
    mkUserMessage 0 "hi"
        ∈ (runEvents initState [ClientEvent.submit 0 "hi"]).client.messages
    ∧ (mkUserMessage 0 "hi").metadata = none :=
  ⟨by decide,
   (claim_c8_metadata_only_assistant [ClientEvent.submit 0 "hi"]).1
     (mkUserMessage 0 "hi") (by decide) (by decide)⟩

/-- Claim C9, confirmed.  In every state reachable by any sequence of
client events at most one POST is pending, and while `isLoading` is true a
further submission is refused (the guarded `handleSend` leaves the state
untouched), so the requests of one client are fully serialized. -/
theorem claim_c9_serialized_requests (es : List ClientEvent) (now : Nat)
    (text : String) :
    (runEvents initState es).pending.length ≤ 1
    ∧ ((runEvents initState es).client.isLoading = true →
        uiStep (runEvents initState es) (ClientEvent.submit now text)
          = runEvents initState es) := by
  have hinv : serializedInv (runEvents initState es) :=
    serializedInv_run initState es ⟨by decide, by decide⟩
  refine ⟨hinv.1, ?_⟩
  intro hload
  simp [uiStep, handleSendAllows, hload]

/-- Witness for claim C9: after one submission the client is loading, and
a second submission is refused. -/
theorem claim_c9_witness :
    (runEvents initState [ClientEvent.submit 0 "hi"]).pending.length ≤ 1
    ∧ uiStep (runEvents initState [ClientEvent.submit 0 "hi"])
          (ClientEvent.submit 1 "more")
        = runEvents initState [ClientEvent.submit 0 "hi"] :=
  ⟨(claim_c9_serialized_requests [ClientEvent.submit 0 "hi"] 1 "more").1,
   (claim_c9_serialized_requests [ClientEvent.submit 0 "hi"] 1 "more").2
     (by decide)⟩

/-- Claim C10, confirmed.  Every user message recorded and transmitted by a
non-rejected `sendMessage` call has content equal to the trimmed input: it
is non-empty, carries no leading or trailing whitespace, and the content
stored locally is identical to the `message` field posted to `/api/chat`. -/
theorem claim_c10_user_content_trimmed (now : Nat) (text : String)
    (s : ClientState) (h : jsTrim text ≠ "") :
    (sendMessageStart now text s).2
        = some { message := (mkUserMessage now text).content,
                 session_id := s.sessionId }
    ∧ (mkUserMessage now text).content = jsTrim text
    ∧ (mkUserMessage now text).content ≠ ""
    ∧ (∀ c : Char, ((mkUserMessage now text).content).data.head? = some c →
        isJsWhitespace c = false)
    ∧ (∀ c : Char, ((mkUserMessage now text).content).data.getLast? = some c →
        isJsWhitespace c = false) := by
  refine ⟨?_, rfl, h, ?_, ?_⟩
  · simp [sendMessageStart, h, mkUserMessage]
  · intro c hc
    exact jsTrimList_head_not_ws text.data c hc
  · intro c hc
    exact jsTrimList_getLast_not_ws text.data c hc

/-- Witness for claim C10. -/
theorem claim_c10_witness :
    jsTrim " hi " ≠ "" ∧ (mkUserMessage 0 " hi ").content = jsTrim " hi " :=
  ⟨by decide,
   (claim_c10_user_content_trimmed 0 " hi " initState.client (by decide)).2.1⟩
